import Mathlib

/-!
Verification of the yagcl-json source (`json.go`, package `yagcl_json`).

The development shallowly embeds the recursive field-to-JSON binder
(`jsonSourceImpl.parse`), the top-level `jsonSourceImpl.Parse`, the
source-configuration check (`verify`), byte acquisition (`getBytes`) and the
key extraction (`extractJSONKey`).

Modelling conventions:
- Go byte slices that hold textual JSON data are modelled as `String`.
- `reflect` values stored in struct fields are modelled by the inductive
  `GoVal`; a non-nil Go pointer is `GoVal.vPtr` around the pointed-to value,
  a nil pointer is `GoVal.vNil`.  A struct value is the spine of its field
  values in declaration order, built from `GoVal.vStructCons` and ended by
  `GoVal.vStructNil` (the spine encoding of a list of field values).
- Static type information is modelled by the inductive `Ty`.  Its
  `tString/tComplex/tInt64/tOther/tStruct` constructors are the stripped
  base types the binder's kind dispatch distinguishes; a struct type is the
  spine (`fCons`/`fNil`) of its field descriptors, each carrying the static
  metadata the binder consumes per field: the field name, whether
  `parsingCompanion.IncludeField` accepts the field, the `json` tag text,
  the fallback key returned by `parsingCompanion.ExtractFieldKey`, the
  static pointer indirection depth, the custom decoder capabilities
  (`json.Unmarshaler` / `encoding.TextUnmarshaler`, which in Go are
  properties of the stripped field type probed via reflection, modelled as
  optional functions from the raw input bytes to a decoded value or an
  error message), and the stripped base type.
- The third-party locator `jsonparser.Get` is modelled by an abstract
  document `Doc : List String → GetRes`: for a path it either yields the raw
  value bytes plus coarse type (for `String` nodes: quotes stripped, escape
  sequences untouched, exactly as `jsonparser` returns them), reports
  `KeyPathNotFoundError`, or fails with some other error.
- External collaborators (`jsonparser.ParseString`, `time.ParseDuration`,
  `encoding/json.Unmarshal` into an `int64` target) are modelled by
  executable Lean functions covering their documented behaviour on the
  inputs the claims exercise.
-/

/-- Coarse JSON value type, mirroring `jsonparser.ValueType` (the
`NotExist`/`Unknown` members only surface through errors and are represented
by `GetRes` instead). -/
inductive JTy where
  | jString
  | jNumber
  | jObject
  | jArray
  | jBoolean
  | jNull
deriving DecidableEq, Repr

/-- Result of `jsonparser.Get(bytes, path...)`: raw value bytes plus coarse
type, `KeyPathNotFoundError`, or any other (malformed-document) error
carrying a message. -/
inductive GetRes where
  | found (valueBytes : String) (dataType : JTy)
  | notFound
  | errOther (msg : String)
deriving DecidableEq, Repr

/-- A JSON document, abstracted to the only interface the binder uses:
the `jsonparser.Get` lookup keyed by a path of object keys. -/
def Doc : Type := List String → GetRes

/-- Runtime Go values stored in the target record's field slots.  A struct
value is the spine of its field values:
`vStructCons v1 (vStructCons v2 ... vStructNil)`. -/
inductive GoVal where
  | vStr (s : String)
  | vInt (n : Int)
  | vComplex
  | vPtr (target : GoVal)
  | vNil
  | vRaw (s : String)
  | vStructNil
  | vStructCons (head : GoVal) (tail : GoVal)
deriving DecidableEq, Repr

/-- Errors produced by the source.  Constructors mirror the Go error values:
`ErrNoDataSourceSpecified`, `ErrMultipleDataSourcesSpecified`,
`yagcl.ErrSourceNotFound`, plain I/O errors, and the `fmt.Errorf` wrappers
built in `parse`/`extractJSONKey`, each carrying the context (field name or
JSON path) that the Go message interpolates. -/
inductive Err where
  | noDataSourceSpecified
  | multipleDataSourcesSpecified
  | sourceNotFound
  | ioError (msg : String)
  | missingKey (fieldName : String)
  | jsonparserError (jsonPath : List String) (msg : String)
  | unmarshalError (jsonPath : List String) (msg : String)
  | unsupportedType (fieldName : String)
  | typeMismatch (fieldName : String) (dataType : JTy)
  | durationError (value : String) (fieldName : String)
  | goPanic (msg : String)
deriving DecidableEq, Repr

/-- Which Go errors wrap `yagcl.ErrParseValue` (the sentinel behind the
spec's `TypeMismatchError` / `ConversionError` / `UnmarshalError` kinds):
`newJsonparserError`, `newUnmarshalError`, the string-kind type mismatch and
the duration parse failure all `%w`-wrap it. -/
def Err.wrapsErrParseValue : Err → Bool
  | .jsonparserError _ _ => true
  | .unmarshalError _ _ => true
  | .typeMismatch _ _ => true
  | .durationError _ _ => true
  | _ => false

/-- Static type information for the binder.  `tString`, `tComplex`,
`tInt64` (with its `AssignableTo(time.Duration)` flag) and `tOther` (any
other kind, carrying the behaviour of `encoding/json.Unmarshal` into a
fresh value of that type) are stripped base types; `tStruct` wraps the
field spine of a struct type; `fNil`/`fCons` build that spine, one
`fCons` per `reflect.StructField` with the per-field metadata the binder
reads. -/
inductive Ty where
  | tString : Ty
  | tComplex : Ty
  | tInt64 : (durationLike : Bool) → Ty
  | tOther : (dec : String → Except String GoVal) → Ty
  | tStruct : (fields : Ty) → Ty
  | fNil : Ty
  | fCons : (fieldName : String) → (included : Bool) → (jsonTag : String) →
      (fallbackKey : String) → (ptrDepth : Nat) →
      (jsonUm : Option (String → Except String GoVal)) →
      (textUm : Option (String → Except String GoVal)) →
      (base : Ty) → (rest : Ty) → Ty

/-- `reflect.Value.IsZero`: a struct is zero iff all its fields are, a
pointer is zero iff it is nil, strings/ints compare against their zero. -/
def GoVal.isZero : GoVal → Bool
  | .vStr s => s = ""
  | .vInt n => n = 0
  | .vComplex => true
  | .vPtr _ => false
  | .vNil => true
  | .vRaw s => s = ""
  | .vStructNil => true
  | .vStructCons h t => h.isZero && t.isZero

/-- Whether a value is a struct value (a field spine). -/
def GoVal.isStructVal : GoVal → Bool
  | .vStructNil => true
  | .vStructCons _ _ => true
  | _ => false

/-- The zero `reflect` value of a type: zero scalars, nil pointers for
pointer-typed fields, and the spine of zero field values for a struct. -/
def zeroOfTy : Ty → GoVal
  | .tString => GoVal.vStr ""
  | .tComplex => GoVal.vComplex
  | .tInt64 _ => GoVal.vInt 0
  | .tOther _ => GoVal.vRaw ""
  | .tStruct fs => zeroOfTy fs
  | .fNil => GoVal.vStructNil
  | .fCons _ _ _ _ d _ _ base rest =>
      GoVal.vStructCons (if d = 0 then zeroOfTy base else GoVal.vNil) (zeroOfTy rest)

/-- `reflect.Indirect`: strip one pointer wrapper if present. -/
def indirectVal : GoVal → GoVal
  | .vPtr w => w
  | v => v

/-- Net effect of the pointer-chain construction loop in `parse`
(the `fieldValue.Kind() == reflect.Pointer` branch): allocate one cell per
static pointer level, store the decoded value in the innermost cell and
link each outer cell to the next inner one, yielding `depth` nested
non-nil pointers around the value. -/
def buildPointerChain : Nat → GoVal → GoVal
  | 0, parsed => parsed
  | n + 1, parsed => GoVal.vPtr (buildPointerChain n parsed)

/-- Dereference `n` pointer levels, `none` if a non-pointer or nil is hit
too early. -/
def peelPtr : Nat → GoVal → Option GoVal
  | 0, v => some v
  | n + 1, .vPtr w => peelPtr n w
  | _ + 1, _ => none

/-- The assignment tail of the per-field loop: `parsed` is converted to the
field type and, when the declared field type is a pointer
(`ptrDepth > 0`), wrapped in the freshly built pointer chain before
`fieldValue.Set`. -/
def setFieldValue (ptrDepth : Nat) (parsed : GoVal) : GoVal :=
  if ptrDepth = 0 then parsed else buildPointerChain ptrDepth parsed

/-- `jsonSourceImpl.extractJSONKey`: the custom `json` tag wins and only its
first comma-separated segment counts (`strings.Split(key, ",")[0]`, here the
prefix before the first comma); otherwise the parsing companion's fallback
key; otherwise an `ErrExportedFieldMissingKey`-wrapping error. -/
def extractJSONKey (fieldName jsonTag fallbackKey : String) : Except Err String :=
  if jsonTag ≠ "" then
    Except.ok (String.mk (jsonTag.data.takeWhile (fun c => c ≠ ',')))
  else if fallbackKey ≠ "" then
    Except.ok fallbackKey
  else
    Except.error (Err.missingKey fieldName)

/-- The temporary struct value prepared for a nested record field:
`if fieldValue.IsZero() { reflect.New(fieldType) } else { fieldValue }`
followed by `reflect.Indirect`. -/
def structTemp (sub : Ty) (v : GoVal) : GoVal :=
  if v.isZero then zeroOfTy (Ty.tStruct sub) else indirectVal v

/-- The in-place effect on a nested record field slot of writes made through
it during a recursive call: for a plain struct field the new field contents,
for a non-nil pointer field the writes land behind the single stripped
pointer. -/
def rebuildInPlace (v : GoVal) (inner : GoVal) : GoVal :=
  match v with
  | .vPtr _ => GoVal.vPtr inner
  | _ => inner

/-- A hexadecimal digit character. -/
def isHexDig (c : Char) : Bool :=
  c.isDigit || ('a' ≤ c && c ≤ 'f') || ('A' ≤ c && c ≤ 'F')

/-- Numeric value of a hexadecimal digit character. -/
def hexVal (c : Char) : Nat :=
  if c.isDigit then c.toNat - '0'.toNat
  else if 'a' ≤ c && c ≤ 'f' then c.toNat - 'a'.toNat + 10
  else c.toNat - 'A'.toNat + 10

/-- Modelled external collaborator: the escape-processing core of
`jsonparser.ParseString`.  Backslash escapes are resolved
(`\" \\ \/ \b \f \n \r \t` and `\uXXXX` as a single code unit); a dangling or
unknown escape is an error. -/
def unescapeChars : List Char → Option (List Char)
  | [] => some []
  | '\\' :: rest =>
    match rest with
    | [] => none
    | c :: rest2 =>
      match c with
      | '"' => (unescapeChars rest2).map (fun l => '"' :: l)
      | '\\' => (unescapeChars rest2).map (fun l => '\\' :: l)
      | '/' => (unescapeChars rest2).map (fun l => '/' :: l)
      | 'b' => (unescapeChars rest2).map (fun l => '\x08' :: l)
      | 'f' => (unescapeChars rest2).map (fun l => '\x0c' :: l)
      | 'n' => (unescapeChars rest2).map (fun l => '\n' :: l)
      | 'r' => (unescapeChars rest2).map (fun l => '\r' :: l)
      | 't' => (unescapeChars rest2).map (fun l => '\t' :: l)
      | 'u' =>
        match rest2 with
        | h1 :: h2 :: h3 :: h4 :: rest3 =>
          if isHexDig h1 && isHexDig h2 && isHexDig h3 && isHexDig h4 then
            (unescapeChars rest3).map (fun l =>
              Char.ofNat (4096 * hexVal h1 + 256 * hexVal h2 + 16 * hexVal h3 + hexVal h4) :: l)
          else none
        | _ => none
      | _ => none
  | c :: rest => (unescapeChars rest).map (fun l => c :: l)

/-- Modelled external collaborator: `jsonparser.ParseString` applied to the
quote-stripped raw bytes of a JSON string node. -/
def parseStringJP (s : String) : Except String String :=
  match unescapeChars s.data with
  | some l => Except.ok (String.mk l)
  | none => Except.error "invalid escape sequence"

/-- Take the longest leading run of decimal digits. -/
def takeDigits : List Char → (List Char × List Char)
  | [] => ([], [])
  | c :: rest =>
    if c.isDigit then
      let p := takeDigits rest
      (c :: p.1, p.2)
    else ([], c :: rest)

/-- Take the longest leading run of unit letters (neither digit nor dot). -/
def takeUnit : List Char → (List Char × List Char)
  | [] => ([], [])
  | c :: rest =>
    if c.isDigit || c = '.' then ([], c :: rest)
    else
      let p := takeUnit rest
      (c :: p.1, p.2)

/-- Nanosecond multiplier of a duration unit suffix, per Go's unit map. -/
def durUnitMap (u : String) : Option Int :=
  if u = "ns" then some 1
  else if u = "us" then some 1000
  else if u = "ms" then some 1000000
  else if u = "s" then some 1000000000
  else if u = "m" then some 60000000000
  else if u = "h" then some 3600000000000
  else none

/-- Decimal value of a digit list. -/
def digitsToNat : List Char → Nat → Nat
  | [], acc => acc
  | c :: rest, acc => digitsToNat rest (10 * acc + (c.toNat - '0'.toNat))

/-- One or more `<decimal integer><unit>` components, summed in nanoseconds.
Every component consumes at least one character, so the input length bounds
the number of iterations and serves as fuel. -/
def parseDurComponentsAux : Nat → List Char → Except String Int
  | 0, _ => Except.error "invalid duration"
  | _ + 1, [] => Except.error "invalid duration"
  | fuel + 1, c :: cs =>
    let p := takeDigits (c :: cs)
    if p.1.isEmpty then Except.error "invalid duration"
    else
      let q := takeUnit p.2
      match durUnitMap (String.mk q.1) with
      | none => Except.error "unknown unit in duration"
      | some mult =>
        let v : Int := mult * Int.ofNat (digitsToNat p.1 0)
        match q.2 with
        | [] => Except.ok v
        | _ =>
          match parseDurComponentsAux fuel q.2 with
          | Except.ok w => Except.ok (v + w)
          | Except.error e => Except.error e

/-- One or more `<decimal integer><unit>` components, summed in nanoseconds. -/
def parseDurComponents (cs : List Char) : Except String Int :=
  parseDurComponentsAux cs.length cs

/-- Modelled external collaborator: Go stdlib `time.ParseDuration`, restricted
to integral components (an optional sign, then one or more
`<decimal integer><unit>` pairs with the standard unit suffixes; the special
literal `0`; anything else is an error).  The result is in nanoseconds, the
unit of `time.Duration`. -/
def parseDuration (s : String) : Except String Int :=
  match s.data with
  | [] => Except.error "invalid duration"
  | c :: rest =>
    let sb : Bool × List Char :=
      if c = '-' then (true, rest) else if c = '+' then (false, rest) else (false, c :: rest)
    if sb.2 = ['0'] then Except.ok 0
    else
      match parseDurComponents sb.2 with
      | Except.ok v => Except.ok (if sb.1 then -v else v)
      | Except.error e => Except.error e

/-- Modelled external collaborator: `encoding/json.Unmarshal` of a raw JSON
value into a fresh `int64`-kind target: an optional minus sign followed by
decimal digits, rejected on any other shape or on 64-bit overflow. -/
def parseIntLit (s : String) : Except String Int :=
  let sb : Bool × List Char :=
    match s.data with
    | '-' :: rest => (true, rest)
    | cs => (false, cs)
  if sb.2.isEmpty || !sb.2.all Char.isDigit then
    Except.error ("cannot unmarshal into int64: " ++ s)
  else
    let n : Int := Int.ofNat (digitsToNat sb.2 0)
    let v : Int := if sb.1 then -n else n
    if v < -(2 ^ 63) || v ≥ 2 ^ 63 then
      Except.error ("number overflows int64: " ++ s)
    else Except.ok v

/-- The default branch of the kind dispatch:
`value = reflect.New(fieldType).Interface(); json.Unmarshal(valueBytes, &value)`.
Only the kinds that can actually reach the default branch decode: `tInt64`
(via `fallthrough`) uses the stdlib integer decode and `tOther` its own
decode function; the remaining kinds are handled by earlier cases. -/
def stdUnmarshal : Ty → String → Except String GoVal
  | .tInt64 _, s => (parseIntLit s).map GoVal.vInt
  | .tOther dec, s => dec s
  | _, s => Except.error ("unreachable default branch: " ++ s)

/-- One iteration of the field loop of `jsonSourceImpl.parse` for a field
with the given metadata and current slot value `v`, given the accumulated
`hasAnyFieldBeenSet` flag `acc`.  The result of the recursive bind call for
a record-typed field is passed in as `subRes` (it is a pure computation, so
the caller evaluates it up front; only the `tStruct` branch reads it).
Returns the updated flag, the updated slot value, and the error that aborts
the whole call, if any (`none` means the loop continues). -/
def parseOneField (doc : Doc) (parentJsonPath : List String)
    (fieldName : String) (incl : Bool) (jsonTag fallbackKey : String)
    (ptrDepth : Nat) (jsonUm textUm : Option (String → Except String GoVal))
    (base : Ty) (v : GoVal) (acc : Bool)
    (subRes : Bool × GoVal × Option Err) : Bool × GoVal × Option Err :=
  -- if !parsingCompanion.IncludeField(structField) { continue }
  if !incl then (acc, v, none)
  else
    match extractJSONKey fieldName jsonTag fallbackKey with
    | Except.error e => (acc, v, some e)
    | Except.ok jsonKey =>
      let jsonPath := parentJsonPath ++ [jsonKey]
      match doc jsonPath with
      -- KeyPathNotFoundError: not every struct field is in the JSON → skip
      | GetRes.notFound => (acc, v, none)
      | GetRes.errOther msg => (acc, v, some (Err.jsonparserError jsonPath msg))
      | GetRes.found valueBytes dataType =>
        -- Custom unmarshaller probe on reflect.New of the stripped type;
        -- fieldValue.CanInterface() holds for the exported fields the
        -- companion admits.
        match jsonUm with
        | some um =>
          -- jsonparser strips the quotes from strings; add them back.
          match um (if dataType = JTy.jString then "\"" ++ valueBytes ++ "\"" else valueBytes) with
          | Except.error e => (acc, v, some (Err.unmarshalError jsonPath e))
          | Except.ok value => (true, setFieldValue ptrDepth value, none)
        | none =>
          match textUm, dataType == JTy.jString with
          | some tm, true =>
            -- Only supported for string nodes ("TextUnmarshaler").
            match tm valueBytes with
            | Except.error e => (acc, v, some (Err.unmarshalError jsonPath e))
            | Except.ok value => (true, setFieldValue ptrDepth value, none)
          | _, _ =>
            -- customUnmarshalApplied = false → kind dispatch
            match base with
            | Ty.tString =>
              if dataType ≠ JTy.jString then
                (acc, v, some (Err.typeMismatch fieldName dataType))
              else
                match parseStringJP valueBytes with
                | Except.error msg => (acc, v, some (Err.jsonparserError jsonPath msg))
                | Except.ok s => (true, setFieldValue ptrDepth (GoVal.vStr s), none)
            | Ty.tStruct sub =>
              if (structTemp sub v).isStructVal then
                match subRes with
                | (hasAnySubStructFieldBeenSet, inner, subErr) =>
                  let acc2 := acc || hasAnySubStructFieldBeenSet
                  match subErr with
                  | some e => (acc2, if v.isZero then v else rebuildInPlace v inner, some e)
                  | none =>
                    if !hasAnySubStructFieldBeenSet then (acc2, v, none)
                    else (true, setFieldValue ptrDepth inner, none)
              else (acc, v, some (Err.goPanic "NumField of non-struct value"))
            | Ty.tComplex => (acc, v, some (Err.unsupportedType fieldName))
            | Ty.tInt64 durationLike =>
              if dataType = JTy.jString then
                match parseStringJP valueBytes with
                | Except.ok stringValue =>
                  if durationLike then
                    match parseDuration stringValue with
                    | Except.error _ => (acc, v, some (Err.durationError stringValue fieldName))
                    | Except.ok dur => (true, setFieldValue ptrDepth (GoVal.vInt dur), none)
                  else
                    -- not a duration alias → fallthrough to default
                    match stdUnmarshal base valueBytes with
                    | Except.error e => (acc, v, some (Err.unmarshalError jsonPath e))
                    | Except.ok value => (true, setFieldValue ptrDepth value, none)
                | Except.error _ =>
                  match stdUnmarshal base valueBytes with
                  | Except.error e => (acc, v, some (Err.unmarshalError jsonPath e))
                  | Except.ok value => (true, setFieldValue ptrDepth value, none)
              else
                match stdUnmarshal base valueBytes with
                | Except.error e => (acc, v, some (Err.unmarshalError jsonPath e))
                | Except.ok value => (true, setFieldValue ptrDepth value, none)
            | _ =>
              match stdUnmarshal base valueBytes with
              | Except.error e => (acc, v, some (Err.unmarshalError jsonPath e))
              | Except.ok value => (true, setFieldValue ptrDepth value, none)

/-- The field loop of `jsonSourceImpl.parse`, processing the field spine and
the corresponding slot-value spine in declaration order while threading
`hasAnyFieldBeenSet`.  Returns the flag, the updated slot values, and the
first hard error.  The recursive bind call for a record-typed field is
evaluated here and handed to `parseOneField` (a pure computation, read only
by its `tStruct` branch). -/
def parseLoop (doc : Doc) (parentJsonPath : List String) :
    Ty → GoVal → Bool → Bool × GoVal × Option Err
  | Ty.fNil, vals, acc => (acc, vals, none)
  | Ty.fCons fieldName incl jsonTag fallbackKey ptrDepth jsonUm textUm base rest,
      GoVal.vStructCons v vs, acc =>
    let subRes : Bool × GoVal × Option Err :=
      match base with
      | Ty.tStruct sub =>
        match extractJSONKey fieldName jsonTag fallbackKey with
        | Except.ok jsonKey =>
          parseLoop doc (parentJsonPath ++ [jsonKey]) sub (structTemp sub v) false
        | Except.error _ => (false, GoVal.vStructNil, none)
      | _ => (false, GoVal.vStructNil, none)
    match parseOneField doc parentJsonPath fieldName incl jsonTag fallbackKey
        ptrDepth jsonUm textUm base v acc subRes with
    | (acc2, v2, some e) => (acc2, GoVal.vStructCons v2 vs, some e)
    | (acc2, v2, none) =>
      match parseLoop doc parentJsonPath rest vs acc2 with
      | (b, vs2, e) => (b, GoVal.vStructCons v2 vs2, e)
  | _, vals, acc => (acc, vals, none)

/-- `jsonSourceImpl.parse` entry: the loop starts with
`hasAnyFieldBeenSet = false`. -/
def jsonParse (doc : Doc) (parentJsonPath : List String)
    (fields : Ty) (vals : GoVal) : Bool × GoVal × Option Err :=
  parseLoop doc parentJsonPath fields vals false

/-- Error classes that byte acquisition can produce, as far as `getBytes`
distinguishes them: a not-exist error (`os.IsNotExist` /
`errors.Is(err, fs.ErrNotExist)`) or any other I/O error. -/
inductive IOErr where
  | notExist
  | other (msg : String)
deriving DecidableEq, Repr

/-- The `jsonSourceImpl` struct.  `bytes` holds the configured byte buffer
(also set by `String`); `reader`, when configured, is modelled by the
outcome of `io.ReadAll` on it. -/
structure jsonSourceImpl where
  must : Bool
  path : String
  bytes : String
  reader : Option (Except IOErr String)
deriving Repr

/-- `Source()`: a fresh, unconfigured source. -/
def Source : jsonSourceImpl :=
  { must := false, path := "", bytes := "", reader := none }

/-- `jsonSourceImpl.Must`. -/
def jsonSourceImpl.Must (s : jsonSourceImpl) : jsonSourceImpl :=
  { s with must := true }

/-- `jsonSourceImpl.Bytes`. -/
def jsonSourceImpl.Bytes (s : jsonSourceImpl) (bytes : String) : jsonSourceImpl :=
  { s with bytes := bytes }

/-- `jsonSourceImpl.String`: stores `[]byte(str)` in the same `bytes` slot. -/
def jsonSourceImpl.StringSrc (s : jsonSourceImpl) (str : String) : jsonSourceImpl :=
  { s with bytes := str }

/-- `jsonSourceImpl.Path`. -/
def jsonSourceImpl.Path (s : jsonSourceImpl) (path : String) : jsonSourceImpl :=
  { s with path := path }

/-- `jsonSourceImpl.Reader`. -/
def jsonSourceImpl.Reader (s : jsonSourceImpl) (r : Except IOErr String) : jsonSourceImpl :=
  { s with reader := some r }

/-- `jsonSourceImpl.verify`: exactly one data source must be configured;
the byte buffer counts only when non-empty. -/
def jsonSourceImpl.verify (s : jsonSourceImpl) : Option Err :=
  let dataSourcesCount : Nat :=
    (if s.path ≠ "" then 1 else 0) +
    (if s.bytes.length > 0 then 1 else 0) +
    (if s.reader.isSome then 1 else 0)
  if dataSourcesCount = 0 then some Err.noDataSourceSpecified
  else if dataSourcesCount > 1 then some Err.multipleDataSourcesSpecified
  else none

/-- `jsonSourceImpl.getBytes` given the file system `fs` (the outcome of
`os.ReadFile` per path).  The deferred handler turns any not-exist error
into `yagcl.ErrSourceNotFound`; the final branch is the dead-code error kept
in the source. -/
def jsonSourceImpl.getBytes (fs : String → Except IOErr String)
    (s : jsonSourceImpl) : Except Err String :=
  -- Do bytes first, since it saves us the error handling code.
  if s.bytes.length > 0 then Except.ok s.bytes
  else
    let raw : Except IOErr String :=
      if s.path ≠ "" then fs s.path
      else
        match s.reader with
        | some r => r
        | none => Except.error (IOErr.other
            "verification process must have failed, please report this to the maintainer")
    match raw with
    | Except.ok data => Except.ok data
    | Except.error IOErr.notExist => Except.error Err.sourceNotFound
    | Except.error (IOErr.other msg) => Except.error (Err.ioError msg)

/-- `jsonSourceImpl.Parse`.  `fs` models the file system, `jp` the
`jsonparser` view of a byte buffer as a document.  Returns
`(wasAnythingLoaded, final target values, error)`; the target values stand
for the caller's record, which `parse` mutates in place. -/
def jsonSourceImpl.Parse (fs : String → Except IOErr String)
    (jp : String → Doc) (s : jsonSourceImpl)
    (fields : Ty) (vals : GoVal) : Bool × GoVal × Option Err :=
  match s.verify with
  | some e => (false, vals, some e)
  | none =>
    match jsonSourceImpl.getBytes fs s with
    | Except.error e =>
      if !s.must && e = Err.sourceNotFound then (false, vals, none)
      else (false, vals, some e)
    | Except.ok bytes =>
      -- _, err = s.parse(...); return err == nil, err
      let r := jsonParse (jp bytes) [] fields vals
      (r.2.2.isNone, r.2.1, r.2.2)

/-- A document in which every path is absent. -/
def emptyDoc : Doc := fun _ => GetRes.notFound

/-- A `jsonparser` view in which every byte buffer is the empty document. -/
def noDoc : String → Doc := fun _ => emptyDoc

/-- A file system on which every read fails with a not-exist error. -/
def c5Fs : String → Except IOErr String := fun _ => Except.error IOErr.notExist

/-- Field spine used in the C1 instantiations: one included string field
tagged `key`. -/
def c1Fields : Ty := Ty.fCons "FieldA" true "key" "" 0 none none Ty.tString Ty.fNil

/-- Zero value spine matching `c1Fields`. -/
def c1Vals : GoVal := GoVal.vStructCons (GoVal.vStr "") GoVal.vStructNil

/-- Inner field spine of the nested record used in the C2 instantiation. -/
def c2Sub : Ty := Ty.fCons "B" true "b" "" 0 none none Ty.tString Ty.fNil

/-- Zero parent slot value for the nested record field of the C2
instantiation. -/
def c2V : GoVal := GoVal.vStructCons (GoVal.vStr "") GoVal.vStructNil

/-- Document for the C2 instantiation: the nested object `sub` is present
and holds a string at key `b`. -/
def c2Doc : Doc := fun p =>
  if p = ["sub"] then GetRes.found "" JTy.jObject
  else if p = ["sub", "b"] then GetRes.found "x" JTy.jString
  else GetRes.notFound

/-- Document whose key `a` fails with a non-not-found lookup error. -/
def c3Doc2 : Doc := fun p =>
  if p = ["a"] then GetRes.errOther "malformed" else GetRes.notFound

/-- Document holding the number `7` at key `a`. -/
def c4Doc : Doc := fun p =>
  if p = ["a"] then GetRes.found "7" JTy.jNumber else GetRes.notFound

/-- A decode function that accepts anything and produces the integer 7. -/
def c4Dec : String → Except String GoVal := fun _ => Except.ok (GoVal.vInt 7)

/-- Document holding the string `abc` at key `a`. -/
def c6Doc : Doc := fun p =>
  if p = ["a"] then GetRes.found "abc" JTy.jString else GetRes.notFound

/-- A `json.Unmarshaler` hook that records the exact bytes it was handed. -/
def c6Um : String → Except String GoVal := fun s => Except.ok (GoVal.vRaw s)

/-- The raw quote-stripped bytes of the JSON string node `"a\nb"` as the
locator returns them: four characters, with the escape sequence intact. -/
def c7Raw : String := "a\\nb"

/-- Document holding the string node with raw bytes `c7Raw` at key `a`. -/
def c7Doc1 : Doc := fun p =>
  if p = ["a"] then GetRes.found c7Raw JTy.jString else GetRes.notFound

/-- Document holding the number `5` at key `a`. -/
def c7Doc2 : Doc := fun p =>
  if p = ["a"] then GetRes.found "5" JTy.jNumber else GetRes.notFound

/-- A `TextUnmarshaler` hook that records the exact bytes it was handed. -/
def c7Tm : String → Except String GoVal := fun s => Except.ok (GoVal.vRaw s)

/-- Document holding the string `10s` at key `a`. -/
def c8Doc : Doc := fun p =>
  if p = ["a"] then GetRes.found "10s" JTy.jString else GetRes.notFound

/-- Document holding an unparsable duration string at key `a`. -/
def c8DocBad : Doc := fun p =>
  if p = ["a"] then GetRes.found "ain\x27t valid" JTy.jString else GetRes.notFound

/-- Document holding a number node at key `a`. -/
def c9Doc : Doc := fun p =>
  if p = ["a"] then GetRes.found "whatever" JTy.jNumber else GetRes.notFound

/-- C1, counterexample: with a correctly configured byte source and a
document that lacks the only field's key, the recursive binder reports
`anyFieldSet = false`, yet `Parse` returns `true`: the boolean result of
`Parse` is not the binder's top-level `anyFieldSet` flag. -/
theorem Parse_bool_not_anyFieldSet_counterexample :
    (jsonSourceImpl.Parse c5Fs noDoc (jsonSourceImpl.Bytes Source "irrelevant")
        c1Fields c1Vals).1 = true ∧
    (jsonParse (noDoc "irrelevant") [] c1Fields c1Vals).1 = false :=
  ⟨rfl, rfl⟩

/-- C1, amended: for every correctly configured source whose bytes load
successfully, `Parse` discards the binder's `anyFieldSet` flag and returns
the boolean `err == nil` together with the binder's error: the boolean is
true exactly when the bind call returned no error (and the error is `none`
on success). -/
theorem Parse_returns_err_isNone (fs : String → Except IOErr String) (jp : String → Doc)
    (s : jsonSourceImpl) (fields : Ty) (vals : GoVal) (bytes : String)
    (hv : s.verify = none) (hb : jsonSourceImpl.getBytes fs s = Except.ok bytes) :
    jsonSourceImpl.Parse fs jp s fields vals =
      ((jsonParse (jp bytes) [] fields vals).2.2.isNone,
       (jsonParse (jp bytes) [] fields vals).2.1,
       (jsonParse (jp bytes) [] fields vals).2.2) := by
  simp [jsonSourceImpl.Parse, hv, hb]

/-- Witness for the C1 theorem at a concrete configured source. -/
theorem Parse_returns_err_isNone_witness :
    jsonSourceImpl.Parse c5Fs noDoc (jsonSourceImpl.Bytes Source "irrelevant")
      c1Fields c1Vals = (true, c1Vals, none) := by
  have h := Parse_returns_err_isNone c5Fs noDoc (jsonSourceImpl.Bytes Source "irrelevant")
    c1Fields c1Vals "irrelevant" rfl rfl
  exact h.trans rfl

/-- C2: for a field whose stripped type is a record, the recursive bind
call's result is attached (behind the field's pointer chain) if and only if
that call reports `anyFieldSet = true`; when it reports `false` the parent
slot keeps its previous value, the loop proceeds to the next field, and the
enclosing call's flag is not marked by this field. -/
theorem struct_field_attach_iff_anyFieldSet (doc : Doc) (pp : List String)
    (nm jt fk k vb : String) (dt : JTy) (d : Nat) (sub rest : Ty)
    (v vs inner : GoVal) (acc subSet : Bool)
    (hk : extractJSONKey nm jt fk = Except.ok k)
    (hfound : doc (pp ++ [k]) = GetRes.found vb dt)
    (hsv : (structTemp sub v).isStructVal = true)
    (hsub : parseLoop doc (pp ++ [k]) sub (structTemp sub v) false = (subSet, inner, none)) :
    parseLoop doc pp (Ty.fCons nm true jt fk d none none (Ty.tStruct sub) rest)
        (GoVal.vStructCons v vs) acc =
      (if subSet then
        ((parseLoop doc pp rest vs true).1,
         GoVal.vStructCons (setFieldValue d inner) (parseLoop doc pp rest vs true).2.1,
         (parseLoop doc pp rest vs true).2.2)
      else
        ((parseLoop doc pp rest vs acc).1,
         GoVal.vStructCons v (parseLoop doc pp rest vs acc).2.1,
         (parseLoop doc pp rest vs acc).2.2)) := by
  cases subSet <;> simp [parseLoop, parseOneField, hk, hfound, hsv, hsub]

/-- Witness for the C2 theorem at a concrete nested record whose sub-call
sets a field: the sub-record is attached. -/
theorem struct_field_attach_iff_anyFieldSet_witness :
    parseLoop c2Doc [] (Ty.fCons "A" true "sub" "" 0 none none (Ty.tStruct c2Sub) Ty.fNil)
        (GoVal.vStructCons c2V GoVal.vStructNil) false =
      (true,
       GoVal.vStructCons (GoVal.vStructCons (GoVal.vStr "x") GoVal.vStructNil)
         GoVal.vStructNil,
       none) := by
  have h := struct_field_attach_iff_anyFieldSet c2Doc [] "A" "sub" "" "sub" "" JTy.jObject 0
    c2Sub Ty.fNil c2V GoVal.vStructNil
    (GoVal.vStructCons (GoVal.vStr "x") GoVal.vStructNil) false true rfl rfl rfl rfl
  exact h.trans rfl

/-- C3: a key-path-not-found lookup for a field's resolved JSON path skips
the field (its slot stays unmodified, no error, the loop continues with the
next field); every other lookup failure immediately aborts the whole bind
call with an error carrying the offending JSON path. -/
theorem notFound_skips_other_errors_abort (doc1 doc2 : Doc) (pp : List String)
    (nm jt fk k msg : String) (d : Nat)
    (ju tu : Option (String → Except String GoVal)) (b rest : Ty)
    (v vs : GoVal) (acc : Bool)
    (hk : extractJSONKey nm jt fk = Except.ok k)
    (h1 : doc1 (pp ++ [k]) = GetRes.notFound)
    (h2 : doc2 (pp ++ [k]) = GetRes.errOther msg) :
    (parseLoop doc1 pp (Ty.fCons nm true jt fk d ju tu b rest)
        (GoVal.vStructCons v vs) acc =
      ((parseLoop doc1 pp rest vs acc).1,
       GoVal.vStructCons v (parseLoop doc1 pp rest vs acc).2.1,
       (parseLoop doc1 pp rest vs acc).2.2)) ∧
    (parseLoop doc2 pp (Ty.fCons nm true jt fk d ju tu b rest)
        (GoVal.vStructCons v vs) acc =
      (acc, GoVal.vStructCons v vs, some (Err.jsonparserError (pp ++ [k]) msg))) := by
  constructor <;> cases b <;> simp [parseLoop, parseOneField, hk, h1, h2]

/-- Witness for the C3 theorem at a concrete string field: an absent key is
skipped, a failing lookup aborts with the path. -/
theorem notFound_skips_other_errors_abort_witness :
    (parseLoop emptyDoc [] (Ty.fCons "A" true "a" "" 0 none none Ty.tString Ty.fNil)
        (GoVal.vStructCons (GoVal.vStr "keep") GoVal.vStructNil) false =
      (false, GoVal.vStructCons (GoVal.vStr "keep") GoVal.vStructNil, none)) ∧
    (parseLoop c3Doc2 [] (Ty.fCons "A" true "a" "" 0 none none Ty.tString Ty.fNil)
        (GoVal.vStructCons (GoVal.vStr "keep") GoVal.vStructNil) false =
      (false, GoVal.vStructCons (GoVal.vStr "keep") GoVal.vStructNil,
       some (Err.jsonparserError ["a"] "malformed"))) := by
  have h := notFound_skips_other_errors_abort emptyDoc c3Doc2 [] "A" "a" "" "a" "malformed"
    0 none none Ty.tString Ty.fNil (GoVal.vStr "keep") GoVal.vStructNil false rfl rfl rfl
  exact ⟨h.1.trans rfl, h.2⟩

/-- C4: a pointer field of static indirection depth N whose node decodes
successfully is assigned `setFieldValue N value`; for N ≥ 1 this is the
fully linked chain of N wrappers produced by `buildPointerChain` with the
decoded value stored at the innermost level (dereferencing N levels returns
the value), and for N = 0 the value is assigned directly. -/
theorem pointer_chain_construction (doc : Doc) (pp : List String)
    (nm jt fk k vb : String) (dt : JTy) (N : Nat)
    (dec : String → Except String GoVal) (rest : Ty) (v vs val : GoVal) (acc : Bool)
    (hk : extractJSONKey nm jt fk = Except.ok k)
    (hfound : doc (pp ++ [k]) = GetRes.found vb dt)
    (hdec : dec vb = Except.ok val) :
    (parseLoop doc pp (Ty.fCons nm true jt fk N none none (Ty.tOther dec) rest)
        (GoVal.vStructCons v vs) acc =
      ((parseLoop doc pp rest vs true).1,
       GoVal.vStructCons (setFieldValue N val) (parseLoop doc pp rest vs true).2.1,
       (parseLoop doc pp rest vs true).2.2)) ∧
    (0 < N → setFieldValue N val = buildPointerChain N val) ∧
    (∀ n : Nat, peelPtr n (buildPointerChain n val) = some val) ∧
    setFieldValue 0 val = val := by
  refine ⟨?_, fun hN => ?_, ?_, rfl⟩
  · simp [parseLoop, parseOneField, hk, hfound, stdUnmarshal, hdec]
  · simp [setFieldValue, Nat.pos_iff_ne_zero.mp hN]
  · intro n
    induction n with
    | zero => rfl
    | succ n ih => simp [buildPointerChain, peelPtr, ih]

/-- Witness for the C4 theorem at depth 2: two nested wrappers with the
concrete value innermost. -/
theorem pointer_chain_construction_witness :
    (parseLoop c4Doc [] (Ty.fCons "A" true "a" "" 2 none none (Ty.tOther c4Dec) Ty.fNil)
        (GoVal.vStructCons GoVal.vNil GoVal.vStructNil) false =
      (true, GoVal.vStructCons (GoVal.vPtr (GoVal.vPtr (GoVal.vInt 7))) GoVal.vStructNil,
       none)) ∧
    peelPtr 2 (buildPointerChain 2 (GoVal.vInt 7)) = some (GoVal.vInt 7) := by
  have h := pointer_chain_construction c4Doc [] "A" "a" "" "a" "7" JTy.jNumber 2 c4Dec
    Ty.fNil GoVal.vNil GoVal.vStructNil (GoVal.vInt 7) false rfl rfl rfl
  exact ⟨h.1.trans rfl, h.2.2.1 2⟩

/-- C5: when byte acquisition reports source-not-found, `Parse` is a no-op
success (record unchanged, no error) if `Must` is unset and a hard
`sourceNotFound` error if `Must` is set; any other acquisition failure is
surfaced as an error regardless of `Must`. -/
theorem must_flag_source_not_found (fs : String → Except IOErr String)
    (jp : String → Doc) (s : jsonSourceImpl) (fields : Ty) (vals : GoVal) (m : String)
    (hv : s.verify = none) :
    (s.must = false → jsonSourceImpl.getBytes fs s = Except.error Err.sourceNotFound →
      jsonSourceImpl.Parse fs jp s fields vals = (false, vals, none)) ∧
    (s.must = true → jsonSourceImpl.getBytes fs s = Except.error Err.sourceNotFound →
      jsonSourceImpl.Parse fs jp s fields vals = (false, vals, some Err.sourceNotFound)) ∧
    (jsonSourceImpl.getBytes fs s = Except.error (Err.ioError m) →
      jsonSourceImpl.Parse fs jp s fields vals = (false, vals, some (Err.ioError m))) := by
  refine ⟨fun hm hb => ?_, fun hm hb => ?_, fun hb => ?_⟩ <;>
    simp [jsonSourceImpl.Parse, hv, hb, *]

/-- Witness for the C5 theorem: a missing file is a no-op success without
`Must` and a hard error with `Must`. -/
theorem must_flag_source_not_found_witness :
    (jsonSourceImpl.Parse c5Fs noDoc (jsonSourceImpl.Path Source "missing.json") Ty.fNil
        GoVal.vStructNil = (false, GoVal.vStructNil, none)) ∧
    (jsonSourceImpl.Parse c5Fs noDoc
        (jsonSourceImpl.Must (jsonSourceImpl.Path Source "missing.json")) Ty.fNil
        GoVal.vStructNil = (false, GoVal.vStructNil, some Err.sourceNotFound)) := by
  have h1 := must_flag_source_not_found c5Fs noDoc
    (jsonSourceImpl.Path Source "missing.json") Ty.fNil GoVal.vStructNil "io troubles" rfl
  have h2 := must_flag_source_not_found c5Fs noDoc
    (jsonSourceImpl.Must (jsonSourceImpl.Path Source "missing.json")) Ty.fNil
    GoVal.vStructNil "io troubles" rfl
  exact ⟨h1.1 rfl rfl, h2.2.1 rfl rfl⟩

/-- C6: a field whose stripped type implements `json.Unmarshaler` receives
the node bytes re-wrapped in quotes when the node's coarse type is String
and unchanged otherwise; a hook failure aborts the bind call with an
`UnmarshalError` carrying the field's JSON path and the cause. -/
theorem json_unmarshaler_quote_wrapping (doc : Doc) (pp : List String)
    (nm jt fk k vb : String) (dt : JTy) (d : Nat)
    (um : String → Except String GoVal) (tu : Option (String → Except String GoVal))
    (b rest : Ty) (v vs : GoVal) (acc : Bool)
    (hk : extractJSONKey nm jt fk = Except.ok k)
    (hfound : doc (pp ++ [k]) = GetRes.found vb dt) :
    parseLoop doc pp (Ty.fCons nm true jt fk d (some um) tu b rest)
        (GoVal.vStructCons v vs) acc =
      match um (if dt = JTy.jString then "\"" ++ vb ++ "\"" else vb) with
      | Except.error e => (acc, GoVal.vStructCons v vs, some (Err.unmarshalError (pp ++ [k]) e))
      | Except.ok value =>
        ((parseLoop doc pp rest vs true).1,
         GoVal.vStructCons (setFieldValue d value) (parseLoop doc pp rest vs true).2.1,
         (parseLoop doc pp rest vs true).2.2) := by
  cases hum : um (if dt = JTy.jString then "\"" ++ vb ++ "\"" else vb) <;>
    cases b <;> simp [parseLoop, parseOneField, hk, hfound, hum]

/-- Witness for the C6 theorem: an echoing hook on the string node `abc`
observes the re-quoted bytes. -/
theorem json_unmarshaler_quote_wrapping_witness :
    parseLoop c6Doc [] (Ty.fCons "A" true "a" "" 0 (some c6Um) none Ty.tString Ty.fNil)
        (GoVal.vStructCons (GoVal.vStr "") GoVal.vStructNil) false =
      (true, GoVal.vStructCons (GoVal.vRaw "\"abc\"") GoVal.vStructNil, none) := by
  have h := json_unmarshaler_quote_wrapping c6Doc [] "A" "a" "" "a" "abc" JTy.jString 0 c6Um
    none Ty.tString Ty.fNil (GoVal.vStr "") GoVal.vStructNil false rfl rfl
  exact h.trans rfl

/-- C7, counterexample: the `TextUnmarshaler` path hands the decoder the raw
quote-stripped bytes of the string node without resolving escape sequences:
for raw bytes `a\nb` (four characters) the decoder observes exactly those
four characters, although unescaping (as `jsonparser.ParseString` performs
it) would produce a different, three-character string. -/
theorem text_unmarshaler_no_unescape_counterexample :
    (parseLoop c7Doc1 [] (Ty.fCons "A" true "a" "" 0 none (some c7Tm) Ty.tString Ty.fNil)
        (GoVal.vStructCons (GoVal.vStr "") GoVal.vStructNil) false =
      (true, GoVal.vStructCons (GoVal.vRaw c7Raw) GoVal.vStructNil, none)) ∧
    parseStringJP c7Raw = Except.ok "a\nb" ∧ c7Raw ≠ "a\nb" :=
  ⟨rfl, rfl, by decide⟩

/-- C7, amended: when the stripped type implements only
`encoding.TextUnmarshaler` and the node is a String, the raw quote-stripped
node bytes are passed to the text decoder unchanged; a decoder failure
aborts with an `UnmarshalError` carrying the path and cause; for a
non-String node the text decoder is not invoked and dispatch falls through
to the kind-based paths. -/
theorem text_unmarshaler_raw_bytes (doc1 doc2 : Doc) (pp : List String)
    (nm jt fk k vb vb2 : String) (dt : JTy) (d : Nat)
    (tm : String → Except String GoVal) (b rest : Ty) (v vs : GoVal) (acc : Bool)
    (hk : extractJSONKey nm jt fk = Except.ok k)
    (h1 : doc1 (pp ++ [k]) = GetRes.found vb JTy.jString)
    (h2 : doc2 (pp ++ [k]) = GetRes.found vb2 dt)
    (hdt : dt ≠ JTy.jString) :
    (parseLoop doc1 pp (Ty.fCons nm true jt fk d none (some tm) b rest)
        (GoVal.vStructCons v vs) acc =
      match tm vb with
      | Except.error e => (acc, GoVal.vStructCons v vs, some (Err.unmarshalError (pp ++ [k]) e))
      | Except.ok value =>
        ((parseLoop doc1 pp rest vs true).1,
         GoVal.vStructCons (setFieldValue d value) (parseLoop doc1 pp rest vs true).2.1,
         (parseLoop doc1 pp rest vs true).2.2)) ∧
    (parseLoop doc2 pp (Ty.fCons nm true jt fk d none (some tm) b rest)
        (GoVal.vStructCons v vs) acc =
      parseLoop doc2 pp (Ty.fCons nm true jt fk d none none b rest)
        (GoVal.vStructCons v vs) acc) := by
  have bdt : (dt == JTy.jString) = false := by simp [hdt]
  constructor
  · cases htm : tm vb <;> cases b <;> simp [parseLoop, parseOneField, hk, h1, htm]
  · cases b <;> simp [parseLoop, parseOneField, hk, h2, hdt, bdt]

/-- Witness for the C7 theorem: the echoing decoder observes the raw
four-character bytes, and on a number node the field behaves exactly as if
it had no text decoder. -/
theorem text_unmarshaler_raw_bytes_witness :
    (parseLoop c7Doc1 [] (Ty.fCons "A" true "a" "" 0 none (some c7Tm) Ty.tString Ty.fNil)
        (GoVal.vStructCons (GoVal.vStr "") GoVal.vStructNil) false =
      (true, GoVal.vStructCons (GoVal.vRaw c7Raw) GoVal.vStructNil, none)) ∧
    (parseLoop c7Doc2 [] (Ty.fCons "A" true "a" "" 0 none (some c7Tm) (Ty.tInt64 false)
        Ty.fNil) (GoVal.vStructCons (GoVal.vInt 0) GoVal.vStructNil) false =
      parseLoop c7Doc2 [] (Ty.fCons "A" true "a" "" 0 none none (Ty.tInt64 false) Ty.fNil)
        (GoVal.vStructCons (GoVal.vInt 0) GoVal.vStructNil) false) := by
  have h1 := text_unmarshaler_raw_bytes c7Doc1 c7Doc2 [] "A" "a" "" "a" c7Raw "5"
    JTy.jNumber 0 c7Tm Ty.tString Ty.fNil (GoVal.vStr "") GoVal.vStructNil false
    rfl rfl rfl (by decide)
  have h2 := text_unmarshaler_raw_bytes c7Doc1 c7Doc2 [] "A" "a" "" "a" c7Raw "5"
    JTy.jNumber 0 c7Tm (Ty.tInt64 false) Ty.fNil (GoVal.vInt 0) GoVal.vStructNil false
    rfl rfl rfl (by decide)
  exact ⟨h1.1.trans rfl, h2.2⟩

/-- C8: a 64-bit signed integer field that is duration-like parses a String
node as a duration literal (`10s` is ten seconds, i.e. 10000000000
nanoseconds; an unparsable string yields the `ErrParseValue`-wrapping
duration conversion error), while an int64 field that is not duration-like
falls through to generic numeric decoding of the raw bytes. -/
theorem int64_duration_dispatch (doc : Doc) (pp : List String)
    (nm jt fk k vb sv : String) (d : Nat) (rest : Ty) (v vs : GoVal) (acc : Bool)
    (hk : extractJSONKey nm jt fk = Except.ok k)
    (h1 : doc (pp ++ [k]) = GetRes.found vb JTy.jString)
    (hps : parseStringJP vb = Except.ok sv) :
    (parseLoop doc pp (Ty.fCons nm true jt fk d none none (Ty.tInt64 true) rest)
        (GoVal.vStructCons v vs) acc =
      match parseDuration sv with
      | Except.error _ => (acc, GoVal.vStructCons v vs, some (Err.durationError sv nm))
      | Except.ok dur =>
        ((parseLoop doc pp rest vs true).1,
         GoVal.vStructCons (setFieldValue d (GoVal.vInt dur)) (parseLoop doc pp rest vs true).2.1,
         (parseLoop doc pp rest vs true).2.2)) ∧
    (parseLoop doc pp (Ty.fCons nm true jt fk d none none (Ty.tInt64 false) rest)
        (GoVal.vStructCons v vs) acc =
      match parseIntLit vb with
      | Except.error e => (acc, GoVal.vStructCons v vs, some (Err.unmarshalError (pp ++ [k]) e))
      | Except.ok n =>
        ((parseLoop doc pp rest vs true).1,
         GoVal.vStructCons (setFieldValue d (GoVal.vInt n)) (parseLoop doc pp rest vs true).2.1,
         (parseLoop doc pp rest vs true).2.2)) ∧
    parseDuration "10s" = Except.ok 10000000000 ∧
    (∃ msg, parseDuration "ain\x27t valid" = Except.error msg) ∧
    (Err.durationError sv nm).wrapsErrParseValue = true := by
  refine ⟨?_, ?_, rfl, ⟨"invalid duration", rfl⟩, rfl⟩
  · cases hd : parseDuration sv <;> simp [parseLoop, parseOneField, hk, h1, hps, hd]
  · cases hi : parseIntLit vb <;>
      simp [parseLoop, parseOneField, hk, h1, hps, stdUnmarshal, Except.map, hi]

/-- Witness for the C8 theorem: `10s` decodes to ten seconds in nanoseconds
and an unparsable duration string aborts with the conversion error. -/
theorem int64_duration_dispatch_witness :
    (parseLoop c8Doc [] (Ty.fCons "A" true "a" "" 0 none none (Ty.tInt64 true) Ty.fNil)
        (GoVal.vStructCons (GoVal.vInt 0) GoVal.vStructNil) false =
      (true, GoVal.vStructCons (GoVal.vInt 10000000000) GoVal.vStructNil, none)) ∧
    (parseLoop c8DocBad [] (Ty.fCons "A" true "a" "" 0 none none (Ty.tInt64 true) Ty.fNil)
        (GoVal.vStructCons (GoVal.vInt 0) GoVal.vStructNil) false =
      (false, GoVal.vStructCons (GoVal.vInt 0) GoVal.vStructNil,
       some (Err.durationError "ain\x27t valid" "A"))) := by
  have h1 := int64_duration_dispatch c8Doc [] "A" "a" "" "a" "10s" "10s" 0 Ty.fNil
    (GoVal.vInt 0) GoVal.vStructNil false rfl rfl rfl
  have h2 := int64_duration_dispatch c8DocBad [] "A" "a" "" "a" "ain\x27t valid"
    "ain\x27t valid" 0 Ty.fNil (GoVal.vInt 0) GoVal.vStructNil false rfl rfl rfl
  exact ⟨h1.1.trans rfl, h2.1.trans rfl⟩

/-- C9, counterexample: a complex field whose key is absent from the
document is skipped without any error, so binding a complex field does not
yield `UnsupportedTypeError` for every input document. -/
theorem complex_absent_key_counterexample :
    parseLoop emptyDoc [] (Ty.fCons "A" true "a" "" 0 none none Ty.tComplex Ty.fNil)
        (GoVal.vStructCons GoVal.vComplex GoVal.vStructNil) false =
      (false, GoVal.vStructCons GoVal.vComplex GoVal.vStructNil, none) :=
  rfl

/-- C9, amended: a complex field whose resolved JSON path is present yields
`UnsupportedTypeError` regardless of the node's bytes or coarse type. -/
theorem complex_unsupported_when_present (doc : Doc) (pp : List String)
    (nm jt fk k vb : String) (dt : JTy) (d : Nat) (rest : Ty)
    (v vs : GoVal) (acc : Bool)
    (hk : extractJSONKey nm jt fk = Except.ok k)
    (hfound : doc (pp ++ [k]) = GetRes.found vb dt) :
    parseLoop doc pp (Ty.fCons nm true jt fk d none none Ty.tComplex rest)
        (GoVal.vStructCons v vs) acc =
      (acc, GoVal.vStructCons v vs, some (Err.unsupportedType nm)) := by
  simp [parseLoop, parseOneField, hk, hfound]

/-- Witness for the C9 theorem at a concrete present number node. -/
theorem complex_unsupported_when_present_witness :
    parseLoop c9Doc [] (Ty.fCons "A" true "a" "" 0 none none Ty.tComplex Ty.fNil)
        (GoVal.vStructCons GoVal.vComplex GoVal.vStructNil) false =
      (false, GoVal.vStructCons GoVal.vComplex GoVal.vStructNil,
       some (Err.unsupportedType "A")) := by
  have h := complex_unsupported_when_present c9Doc [] "A" "a" "" "a" "whatever" JTy.jNumber
    0 Ty.fNil GoVal.vComplex GoVal.vStructNil false rfl rfl
  exact h

/-- C10: a source configured only via `Bytes` with an empty buffer (or via
`String` with the empty string) counts as having no data source: `verify`
reports the no-data-source error and `Parse` returns it with `false`;
a non-empty buffer makes the bytes source count as configured. -/
theorem empty_bytes_no_data_source (fs : String → Except IOErr String)
    (jp : String → Doc) (fields : Ty) (vals : GoVal) :
    (jsonSourceImpl.Bytes Source "").verify = some Err.noDataSourceSpecified ∧
    (jsonSourceImpl.StringSrc Source "").verify = some Err.noDataSourceSpecified ∧
    jsonSourceImpl.Parse fs jp (jsonSourceImpl.Bytes Source "") fields vals =
      (false, vals, some Err.noDataSourceSpecified) ∧
    jsonSourceImpl.Parse fs jp (jsonSourceImpl.StringSrc Source "") fields vals =
      (false, vals, some Err.noDataSourceSpecified) ∧
    (∀ b : String, 0 < b.length → (jsonSourceImpl.Bytes Source b).verify = none) := by
  refine ⟨rfl, rfl, rfl, rfl, fun b hb => ?_⟩
  simp [jsonSourceImpl.Bytes, jsonSourceImpl.verify, Source, hb]

/-- Witness for the C10 theorem at concrete sources. -/
theorem empty_bytes_no_data_source_witness :
    jsonSourceImpl.Parse c5Fs noDoc (jsonSourceImpl.Bytes Source "") Ty.fNil
        GoVal.vStructNil = (false, GoVal.vStructNil, some Err.noDataSourceSpecified) ∧
    (jsonSourceImpl.Bytes Source "x").verify = none := by
  have h := empty_bytes_no_data_source c5Fs noDoc Ty.fNil GoVal.vStructNil
  exact ⟨h.2.2.1, h.2.2.2.2 "x" (by decide)⟩
